import Mathlib

/-!
Shallow embedding of the concurrent command-execution engine of this
repository: the fleet orchestrator and worker body of subcmds/forall.py,
and the single-invocation runner of git_command.py.  Python integers are
Int; a Python value that may be None is Option Int or Option String with
none for None; Python truthiness and the or operator are modelled
explicitly.
-/

namespace GitRepo

/-! ## Python value helpers -/

/-- Truthiness of a Python value that is either None or an int:
None and 0 are falsy, every other int is truthy. -/
def truthy : Option Int → Bool
  | none => false
  | some n => n != 0

/-- The Python expression a or b on values that are None or ints:
returns a when a is truthy, b otherwise. -/
def pyOr (a b : Option Int) : Option Int :=
  if truthy a then a else b

/-- The Python comparison r != 0 on a value that is None or an int:
None != 0 is true. -/
def pyNe0 : Option Int → Bool
  | none => true
  | some n => n != 0

/-- The Python expression a or b restricted to ints, as folded by
rc = rc or r in Forall.Execute when every result is an int. -/
def intOr (a b : Int) : Int :=
  if a != 0 then a else b

/-! ## Forall.Execute result collection (subcmds/forall.py lines 140-166)

The orchestrator iterates over the pool results.  Each step of the
iteration either delivers a worker return value (an int exit status, or
None when the worker skipped the project), or raises out of the
iterator: a KeyboardInterrupt, a WorkerKeyboardInterrupt re-raised by
DoWorkWrapper, or any other exception (carrying an optional errno
attribute).  The except clauses of Execute translate each raise into a
final rc and a pool.terminate call; the abort-on-errors raise inside
the loop is itself caught by the generic except clause, which finds no
errno attribute on it and folds in 1. -/

/-- One event observed by the result-collection loop of Forall.Execute. -/
inductive PoolItem
  | res (r : Option Int)
  | kbInt
  | workerInt
  | exc (eno : Option Int)
deriving DecidableEq

/-- The platform interrupted-signal code errno.EINTR (4 on Linux). -/
def EINTR : Int := 4

/-- Final state of the result-collection loop: the rc value after the
try/except blocks, and whether pool.terminate() was called. -/
structure CollectOut where
  rc : Option Int
  terminated : Bool
deriving DecidableEq

/-- The result-collection loop of Forall.Execute: rc = rc or r for each
delivered result; under abort_on_errors a result with r != 0 raises
Exception, caught by the generic handler which folds in its default
errno 1 and terminates the pool; KeyboardInterrupt and
WorkerKeyboardInterrupt terminate the pool and fold in EINTR; any other
exception terminates the pool and folds in its errno, defaulting to 1. -/
def collect (abort : Bool) : Option Int → List PoolItem → CollectOut
  | rc, [] => ⟨rc, false⟩
  | rc, .res r :: rest =>
    let rc' := pyOr rc r
    if pyNe0 r && abort then ⟨pyOr rc' (some 1), true⟩
    else collect abort rc' rest
  | rc, .kbInt :: _ => ⟨pyOr rc (some EINTR), true⟩
  | rc, .workerInt :: _ => ⟨pyOr rc (some EINTR), true⟩
  | rc, .exc eno :: _ => ⟨pyOr rc (some (eno.getD 1)), true⟩

/-- How Forall.Execute ends: returning normally, or calling
sys.exit(rc) with the final rc (sys.exit(None) is possible, since
rc can be None and None != 0 holds in Python). -/
inductive Outcome
  | normal
  | exit (code : Option Int)
deriving DecidableEq

/-- Forall.Execute after the collection loop: if rc != 0 then
sys.exit(rc) else return. -/
def executeOutcome (abort : Bool) (items : List PoolItem) : Outcome :=
  let out := collect abort (some 0) items
  if pyNe0 out.rc then .exit out.rc else .normal

/-- The operating-system exit status produced by an Outcome:
sys.exit(None) exits with status 0, sys.exit(n) with status n. -/
def processCode : Outcome → Int
  | .normal => 0
  | .exit none => 0
  | .exit (some n) => n

/-- The aggregate rc after collecting the given items from rc = 0. -/
def aggregate (abort : Bool) (items : List PoolItem) : Option Int :=
  (collect abort (some 0) items).rc

/-- Pool items for a run in which every worker returned an int status. -/
def resItems (codes : List Int) : List PoolItem :=
  codes.map fun c => PoolItem.res (some c)

/-- The return value of DoWork (subcmds/forall.py lines 207-315): when
the resolved working directory does not exist the function prints a
warning and returns with no value (None); otherwise it returns the
spawned child's exit status p.wait(). -/
def DoWork (cwdExists : Bool) (childStatus : Int) : Option Int :=
  if cwdExists then some childStatus else none

/-- The exceptions that can cross the worker boundary in forall.py. -/
inductive PyExc
  | ki
  | workerKi
  | generic (eno : Option Int)
deriving DecidableEq

/-- DoWorkWrapper (subcmds/forall.py lines 191-204): runs the worker
body and re-raises a KeyboardInterrupt observed inside the worker as a
WorkerKeyboardInterrupt; every other outcome passes through. -/
def DoWorkWrapper (body : Except PyExc (Option Int)) : Except PyExc (Option Int) :=
  match body with
  | .error .ki => .error .workerKi
  | other => other

/-! ## Helper lemmas for the collection loop -/

theorem collect_res_int (codes : List Int) : ∀ a : Int,
    collect false (some a) (resItems codes) = ⟨some (codes.foldl intOr a), false⟩ := by
  induction codes with
  | nil => intro a; simp [collect, resItems]
  | cons c cs ih =>
    intro a
    simp only [resItems, List.map_cons, collect, List.foldl_cons]
    have hor : pyOr (some a) (some c) = some (intOr a c) := by
      simp only [pyOr, truthy, intOr]
      by_cases h : a = 0 <;> simp [h]
    rw [hor]
    simpa [resItems] using ih (intOr a c)

theorem foldl_intOr_absorb (codes : List Int) : ∀ a : Int, a ≠ 0 →
    codes.foldl intOr a = a := by
  induction codes with
  | nil => intro a _; rfl
  | cons c cs ih =>
    intro a ha
    simp only [List.foldl_cons]
    have : intOr a c = a := by simp [intOr, ha]
    rw [this]
    exact ih a ha

theorem foldl_intOr_find (codes : List Int) :
    codes.foldl intOr 0 = ((codes.find? fun c => c != 0).getD 0) := by
  induction codes with
  | nil => rfl
  | cons c cs ih =>
    simp only [List.foldl_cons]
    have h0 : intOr 0 c = c := by simp [intOr]
    rw [h0]
    by_cases hc : c = 0
    · subst hc
      rw [List.find?_cons_of_neg _ (by simp)]
      exact ih
    · rw [foldl_intOr_absorb cs c hc, List.find?_cons_of_pos _ (by simp [hc])]
      rfl

theorem collect_all_zero (rs : List (Option Int)) (h : ∀ r ∈ rs, r = some 0) :
    ∀ abort tail, collect abort (some 0) (rs.map PoolItem.res ++ tail) =
      collect abort (some 0) tail := by
  induction rs with
  | nil => intro abort tail; rfl
  | cons r rest ih =>
    intro abort tail
    have hr : r = some 0 := h r (by simp)
    subst hr
    simp only [List.map_cons, List.cons_append, collect]
    have h1 : pyOr (some 0) (some 0) = some (0 : Int) := by simp [pyOr, truthy]
    have h2 : pyNe0 (some (0 : Int)) = false := by simp [pyNe0]
    rw [h1, h2]
    simp only [Bool.false_and, Bool.false_eq_true, if_false]
    exact ih (fun x hx => h x (by simp [hx])) abort tail

theorem fold_bne_any (codes : List Int) :
    ((codes.foldl intOr 0) != 0) = codes.any (fun c => c != 0) := by
  rw [foldl_intOr_find]
  cases h : codes.find? (fun c => c != 0) with
  | none =>
    have hall := List.find?_eq_none.mp h
    simp only [Option.getD_none, bne_self_eq_false]
    symm
    rw [List.any_eq_false]
    intro x hx
    simpa using hall x hx
  | some c =>
    have hc := List.find?_some h
    have hmem := List.mem_of_find?_eq_some h
    simp only [Option.getD_some]
    rw [hc]
    symm
    rw [List.any_eq_true]
    exact ⟨c, hmem, hc⟩

/-! ## Claim theorems on the orchestrator exit-code fold -/

/-- Claim C5: with abort-on-first-error disabled and no interruption,
the aggregate exit code is the or-fold of all per-project exit codes
(nonzero exactly when some per-project code is nonzero); three projects
returning 0, 0, 1 yield aggregate 1; Forall.Execute calls sys.exit with
the aggregate whenever it is nonzero and returns normally otherwise. -/
theorem forall_aggregate_or_fold :
    (∀ codes : List Int,
        aggregate false (resItems codes) = some (codes.foldl intOr 0) ∧
        truthy (aggregate false (resItems codes)) = codes.any (fun c => c != 0) ∧
        executeOutcome false (resItems codes) =
          (if codes.any (fun c => c != 0) then
              Outcome.exit (some (codes.foldl intOr 0))
            else Outcome.normal)) ∧
    executeOutcome false (resItems [0, 0, 1]) = Outcome.exit (some 1) ∧
    processCode (executeOutcome false (resItems [0, 0, 1])) = 1 ∧
    executeOutcome false (resItems [0, 0, 0]) = Outcome.normal := by
  refine ⟨fun codes => ?_, by decide, by decide, by decide⟩
  have hagg : aggregate false (resItems codes) = some (codes.foldl intOr 0) := by
    unfold aggregate
    rw [collect_res_int]
  refine ⟨hagg, ?_, ?_⟩
  · rw [hagg]
    show ((codes.foldl intOr 0) != 0) = _
    exact fold_bne_any codes
  · simp only [executeOutcome, collect_res_int]
    have hpy : pyNe0 (some (codes.foldl intOr 0)) = codes.any (fun c => c != 0) := by
      show ((codes.foldl intOr 0) != 0) = _
      exact fold_bne_any codes
    rw [hpy]

/-- Claim C10: with abort disabled and no interruption, the aggregate
exit code is exactly the first nonzero per-project exit code in
result-delivery order, because the fold is the Python or; in particular
codes 1 then 2 yield aggregate 1, not the bitwise combination 3. -/
theorem forall_aggregate_first_nonzero :
    (∀ codes : List Int,
        aggregate false (resItems codes) = some ((codes.find? fun c => c != 0).getD 0)) ∧
    aggregate false (resItems [1, 2]) = some 1 ∧
    aggregate false (resItems [1, 2]) ≠ some (Int.lor 1 2) := by
  refine ⟨fun codes => ?_, by decide, by decide⟩
  unfold aggregate
  rw [collect_res_int, foldl_intOr_find]

/-- Claim C3: the code contradicts the claim.  DoWork returns None for
a project whose working directory is missing; under abort_on_errors the
orchestrator treats None as a failed result (None != 0 in Python),
raises the abort exception, and exits with aggregate 1, although the
same run without that project returns normally; even without abort the
final rc is None and Execute calls sys.exit(None) instead of
returning. -/
theorem forall_missing_dir_abort_eval :
    DoWork false 0 = none ∧
    executeOutcome true [PoolItem.res (DoWork false 0)] = Outcome.exit (some 1) ∧
    executeOutcome true [] = Outcome.normal ∧
    executeOutcome false [PoolItem.res (DoWork false 0)] = Outcome.exit none ∧
    processCode (executeOutcome true [PoolItem.res (DoWork false 0)]) = 1 := by
  decide

/-- Claim C4, counterexample: a worker interruption observed after a
project already returned exit code 5 leaves the aggregate at 5, not at
the platform interrupted-signal code EINTR, because Execute computes
rc = rc or errno.EINTR. -/
theorem forall_interrupt_keeps_code_cex :
    executeOutcome false [PoolItem.res (some 5), PoolItem.workerInt] = Outcome.exit (some 5) ∧
    processCode (executeOutcome false [PoolItem.res (some 5), PoolItem.workerInt]) ≠ EINTR ∧
    (collect false (some 0) [PoolItem.res (some 5), PoolItem.workerInt]).terminated = true := by
  decide

/-- Claim C4 as amended: a KeyboardInterrupt inside a worker always
surfaces as WorkerKeyboardInterrupt (never as the raw interruption),
any interruption during collection terminates the pool and folds the
aggregate as rc = rc or EINTR, and the aggregate equals EINTR whenever
every result collected before the interruption was zero. -/
theorem forall_interrupt_amended :
    (∀ body, DoWorkWrapper body ≠ Except.error PyExc.ki) ∧
    (∀ abort rc rest,
        collect abort rc (PoolItem.workerInt :: rest) = ⟨pyOr rc (some EINTR), true⟩) ∧
    (∀ abort (rs : List (Option Int)), (∀ r ∈ rs, r = some 0) →
        executeOutcome abort (rs.map PoolItem.res ++ [PoolItem.workerInt]) =
          Outcome.exit (some EINTR) ∧
        (collect abort (some 0) (rs.map PoolItem.res ++ [PoolItem.workerInt])).terminated
          = true) := by
  refine ⟨?_, ?_, ?_⟩
  · intro body h
    cases body with
    | ok v => simp [DoWorkWrapper] at h
    | error e => cases e <;> simp [DoWorkWrapper] at h
  · intro abort rc rest
    rfl
  · intro abort rs h
    have hc := collect_all_zero rs h abort [PoolItem.workerInt]
    constructor
    · simp only [executeOutcome, hc]
      rfl
    · rw [hc]
      rfl

/-- Witness for the amended C4 theorem at a concrete run: one project
returning 0 followed by a worker interruption exits with EINTR. -/
theorem forall_interrupt_amended_w :
    executeOutcome false [PoolItem.res (some 0), PoolItem.workerInt] =
      Outcome.exit (some EINTR) :=
  (forall_interrupt_amended.2.2 false [some 0] (by decide)).1

/-! ## Project descriptors and the fan-out generator
(subcmds/forall.py lines 168-181) -/

/-- The flattened project descriptor built by _SerializeProject: the
dict with keys name, relpath, remote_name, lrev, rrev, annotations,
gitdir and worktree that DoWork consumes.  Each plain field may be
None; the annotation mapping pairs each annotation name with its
value. -/
structure ProjDesc where
  name : Option String
  relpath : Option String
  remote_name : Option String
  lrev : Option String
  rrev : Option String
  anns : List (String × Option String)
  worktree : Option String
  gitdir : Option String
deriving DecidableEq

/-- Forall.ProjectArgs: walks the enumerated project list; for each
project it serializes the descriptor and yields one work item carrying
the enumeration index cnt and the descriptor (the loop-invariant
mirror, opt, cmd, shell and config entries of the yielded list are
omitted here).  When serialization raises, the error is printed and
the generator executes return, ending the whole stream. -/
def ProjectArgs : Nat → List (Except String ProjDesc) → List (Nat × ProjDesc)
  | _, [] => []
  | cnt, Except.ok d :: rest => (cnt, d) :: ProjectArgs (cnt + 1) rest
  | _, Except.error _ :: _ => []

/-- A descriptor with only the name and paths populated, for concrete runs. -/
def mkDesc (n : String) : ProjDesc :=
  { name := some n, relpath := some n, remote_name := none, lrev := none,
    rrev := none, anns := [], worktree := some ("/w/" ++ n), gitdir := some ("/g/" ++ n) }

/-- Claim C2, counterexample: with three projects of which the second
fails descriptor resolution, ProjectArgs yields a work item only for
the first project; the third, although perfectly resolvable, gets no
work item, so the fan-out of the remaining projects is aborted rather
than continued. -/
theorem forall_projectargs_stops_cex :
    ProjectArgs 0 [Except.ok (mkDesc "a"), Except.error "resolution failure",
        Except.ok (mkDesc "b")] = [(0, mkDesc "a")] ∧
    (ProjectArgs 0 [Except.ok (mkDesc "a"), Except.error "resolution failure",
        Except.ok (mkDesc "b")]).length ≠ 2 := by
  decide

/-- Claim C2 as amended: a failure while resolving one project
descriptor is reported and ends the fan-out: work items are produced
exactly for the longest resolvable initial run of the project list, indexed
consecutively from the starting count; the failing project and every
project after it are skipped. -/
theorem forall_projectargs_ok_run :
    ∀ (ps : List (Except String ProjDesc)) (c : Nat),
      ProjectArgs c ps =
        List.enumFrom c ((ps.takeWhile Except.isOk).filterMap Except.toOption) := by
  intro ps
  induction ps with
  | nil => intro c; rfl
  | cons p rest ih =>
    intro c
    cases p with
    | ok d =>
      simp only [ProjectArgs, List.takeWhile_cons, Except.isOk, Except.toOption,
        List.filterMap_cons, List.enumFrom, ih (c + 1)]
    | error s => rfl

/-! ## Process environments -/

/-- A process environment: a lookup from variable names to values,
none meaning the variable is unset. -/
abbrev Env := String → Option String

/-- Assignment env[k] = v. -/
def envSet (e : Env) (k v : String) : Env :=
  fun n => if n = k then some v else e n

/-- The setenv helper of DoWork (subcmds/forall.py lines 209-214): a
None value is replaced by the empty string (the encode call is the
identity for this model), then the variable is assigned. -/
def pySetenv (e : Env) (k : String) (v : Option String) : Env :=
  envSet e k (v.getD "")

theorem envSet_ne (e : Env) (k v n : String) (h : n ≠ k) : envSet e k v n = e n := by
  simp [envSet, h]

theorem envSet_same (e : Env) (k v : String) : envSet e k v k = some v := by
  simp [envSet]

theorem pySetenv_ne (e : Env) (k : String) (v : Option String) (n : String)
    (h : n ≠ k) : pySetenv e k v n = e n :=
  envSet_ne e k _ n h

theorem pySetenv_keeps_some (e : Env) (k : String) (v : Option String) (n : String)
    (h : ∃ u, e n = some u) : ∃ u, pySetenv e k v n = some u := by
  by_cases hn : n = k
  · subst hn
    exact ⟨v.getD "", envSet_same e n (v.getD "")⟩
  · rw [pySetenv_ne e k v n hn]
    exact h

/-! ## The per-project environment of DoWork
(subcmds/forall.py lines 207-229) -/

/-- The environment DoWork hands to the spawned command: the ambient
environment of the worker, the six fixed REPO_ variables, one
REPO__<NAME> variable per annotation, and in mirror mode GIT_DIR
pinned to the project gitdir. -/
def doWorkEnv (ambient : Env) (p : ProjDesc) (mirror : Bool) (cnt : Nat) : Env :=
  let e := pySetenv ambient "REPO_PROJECT" p.name
  let e := pySetenv e "REPO_PATH" p.relpath
  let e := pySetenv e "REPO_REMOTE" p.remote_name
  let e := pySetenv e "REPO_LREV" p.lrev
  let e := pySetenv e "REPO_RREV" p.rrev
  let e := pySetenv e "REPO_I" (some (toString (cnt + 1)))
  let e := p.anns.foldl (fun acc q => pySetenv acc ("REPO__" ++ q.1) q.2) e
  if mirror then pySetenv e "GIT_DIR" p.gitdir else e

theorem annKey_take (a : String) :
    ("REPO__" ++ a).data.take 6 = ['R', 'E', 'P', 'O', '_', '_'] := by
  cases a with
  | mk l => rfl

theorem annKey_ne (a k : String) (h : k.data.take 6 ≠ ['R', 'E', 'P', 'O', '_', '_']) :
    "REPO__" ++ a ≠ k :=
  fun he => h (he ▸ annKey_take a)

theorem annFold_pres (anns : List (String × Option String)) :
    ∀ (e : Env) (k : String), k.data.take 6 ≠ ['R', 'E', 'P', 'O', '_', '_'] →
      (anns.foldl (fun acc q => pySetenv acc ("REPO__" ++ q.1) q.2) e) k = e k := by
  induction anns with
  | nil => intro e k _; rfl
  | cons q rest ih =>
    intro e k hk
    simp only [List.foldl_cons]
    rw [ih _ k hk]
    exact pySetenv_ne e _ q.2 k (Ne.symm (annKey_ne q.1 k hk))

theorem annFold_some (anns : List (String × Option String)) :
    ∀ (e : Env) (k : String), (∃ u, e k = some u) →
      ∃ u, (anns.foldl (fun acc q => pySetenv acc ("REPO__" ++ q.1) q.2) e) k = some u := by
  induction anns with
  | nil => intro e k h; exact h
  | cons q rest ih =>
    intro e k h
    simp only [List.foldl_cons]
    exact ih _ k (pySetenv_keeps_some e _ q.2 k h)

theorem annFold_sets (anns : List (String × Option String)) :
    ∀ (e : Env) (q : String × Option String), q ∈ anns →
      ∃ u, (anns.foldl (fun acc q => pySetenv acc ("REPO__" ++ q.1) q.2) e)
        ("REPO__" ++ q.1) = some u := by
  induction anns with
  | nil => intro e q h; cases h
  | cons q0 rest ih =>
    intro e q hq
    simp only [List.foldl_cons]
    rcases List.mem_cons.mp hq with h | h
    · subst h
      exact annFold_some rest _ _ ⟨q.2.getD "", envSet_same _ _ _⟩
    · exact ih _ q h

theorem doWorkEnv_fixed (ambient : Env) (p : ProjDesc) (mirror : Bool) (cnt : Nat)
    (k : String) (hk : k.data.take 6 ≠ ['R', 'E', 'P', 'O', '_', '_'])
    (hg : k ≠ "GIT_DIR") :
    doWorkEnv ambient p mirror cnt k =
      pySetenv (pySetenv (pySetenv (pySetenv (pySetenv (pySetenv ambient
        "REPO_PROJECT" p.name) "REPO_PATH" p.relpath) "REPO_REMOTE" p.remote_name)
        "REPO_LREV" p.lrev) "REPO_RREV" p.rrev) "REPO_I" (some (toString (cnt + 1))) k := by
  unfold doWorkEnv
  cases mirror with
  | false => exact annFold_pres p.anns _ k hk
  | true =>
    show pySetenv _ "GIT_DIR" p.gitdir k = _
    rw [pySetenv_ne _ _ _ k hg]
    exact annFold_pres p.anns _ k hk

/-- A descriptor whose relpath is None, with no annotations. -/
def descNoPath : ProjDesc :=
  { name := some "p", relpath := none, remote_name := none, lrev := none,
    rrev := none, anns := [], worktree := some "/w/p", gitdir := none }

/-- The empty ambient environment. -/
def emptyAmbient : Env := fun _ => none

/-- Claim C7, counterexample: for a project whose relpath field is
None, DoWork sets REPO_PATH to the empty string in the child
environment instead of leaving it unset. -/
theorem forall_env_empty_field_cex :
    doWorkEnv emptyAmbient descNoPath false 0 "REPO_PATH" = some "" ∧
    emptyAmbient "REPO_PATH" = none ∧
    some "" ≠ (none : Option String) := by
  refine ⟨by rfl, rfl, by simp⟩

/-- Claim C7 as amended: every fan-out invocation sets all six fixed
per-project variables as strings — a variable whose underlying field is
empty or missing is set to the empty string, not left unset — REPO_I is
the decimal string of the 1-based sequence index, and one
REPO__<ANNOTATION_NAME> variable is set per project annotation. -/
theorem forall_env_vars_amended :
    ∀ (ambient : Env) (p : ProjDesc) (mirror : Bool) (cnt : Nat),
      doWorkEnv ambient p mirror cnt "REPO_PROJECT" = some (p.name.getD "") ∧
      doWorkEnv ambient p mirror cnt "REPO_PATH" = some (p.relpath.getD "") ∧
      doWorkEnv ambient p mirror cnt "REPO_REMOTE" = some (p.remote_name.getD "") ∧
      doWorkEnv ambient p mirror cnt "REPO_LREV" = some (p.lrev.getD "") ∧
      doWorkEnv ambient p mirror cnt "REPO_RREV" = some (p.rrev.getD "") ∧
      doWorkEnv ambient p mirror cnt "REPO_I" = some (toString (cnt + 1)) ∧
      (∀ q ∈ p.anns,
        ∃ u, doWorkEnv ambient p mirror cnt ("REPO__" ++ q.1) = some u) := by
  intro ambient p mirror cnt
  refine ⟨?_, ?_, ?_, ?_, ?_, ?_, ?_⟩
  · rw [doWorkEnv_fixed ambient p mirror cnt _ (by decide) (by decide)]
    simp [pySetenv, envSet]
  · rw [doWorkEnv_fixed ambient p mirror cnt _ (by decide) (by decide)]
    simp [pySetenv, envSet]
  · rw [doWorkEnv_fixed ambient p mirror cnt _ (by decide) (by decide)]
    simp [pySetenv, envSet]
  · rw [doWorkEnv_fixed ambient p mirror cnt _ (by decide) (by decide)]
    simp [pySetenv, envSet]
  · rw [doWorkEnv_fixed ambient p mirror cnt _ (by decide) (by decide)]
    simp [pySetenv, envSet]
  · rw [doWorkEnv_fixed ambient p mirror cnt _ (by decide) (by decide)]
    simp [pySetenv, envSet]
  · intro q hq
    unfold doWorkEnv
    cases mirror with
    | false => exact annFold_sets p.anns _ q hq
    | true =>
      exact pySetenv_keeps_some _ _ _ _ (annFold_sets p.anns _ q hq)

/-- Witness for the amended C7 theorem at a concrete descriptor:
REPO_I gets the 1-based index string, an annotation variable is set,
and an empty remote field becomes the empty string. -/
theorem forall_env_vars_amended_w :
    doWorkEnv emptyAmbient
      { descNoPath with anns := [("FOO", some "bar")] } false 2 "REPO_I" = some "3" ∧
    (∃ u, doWorkEnv emptyAmbient
      { descNoPath with anns := [("FOO", some "bar")] } false 2 ("REPO__" ++ "FOO")
        = some u) ∧
    doWorkEnv emptyAmbient
      { descNoPath with anns := [("FOO", some "bar")] } false 2 "REPO_REMOTE"
      = some "" := by
  refine ⟨?_, ?_, ?_⟩
  · exact (forall_env_vars_amended emptyAmbient _ false 2).2.2.2.2.2.1
  · exact (forall_env_vars_amended emptyAmbient _ false 2).2.2.2.2.2.2
      ("FOO", some "bar") (by simp)
  · exact (forall_env_vars_amended emptyAmbient _ false 2).2.2.1

/-! ## GitCommand child environment (git_command.py lines 107-154) -/

/-- The deny list of VCS-internal variables removed from the ambient
environment at the start of GitCommand.__init__. -/
def denyList : List String :=
  ["REPO_TRACE", "GIT_DIR", "GIT_ALTERNATE_OBJECT_DIRECTORIES",
   "GIT_OBJECT_DIRECTORY", "GIT_WORK_TREE", "GIT_GRAFT_FILE", "GIT_INDEX_FILE"]

/-- The overlay flags of a GitCommand invocation. -/
structure GCArgs where
  bare : Bool
  provide_stdin : Bool
  capture_stdout : Bool
  capture_stderr : Bool
  disable_editor : Bool
deriving DecidableEq

/-- env = dict(os.environ) followed by deletion of every deny-listed
variable that is present. -/
def gcStrip (ambient : Env) : Env :=
  fun n => if n ∈ denyList then none else ambient n

/-- if disable_editor: set GIT_EDITOR to the no-op value. -/
def gcEditor (dis : Bool) (e : Env) : Env :=
  if dis then envSet e "GIT_EDITOR" ":" else e

/-- if ssh_proxy: inject the control-socket path and the proxy-launcher
path for the remote-transport binary. -/
def gcSsh (sp : Bool) (sock proxy : String) (e : Env) : Env :=
  if sp then envSet (envSet e "REPO_SSH_SOCK" sock) "GIT_SSH" proxy else e

/-- On darwin, translate an ambient http_proxy value into a
GIT_CONFIG_PARAMETERS entry, space-joined to any existing value. -/
def gcProxy (darwin : Bool) (e : Env) : Env :=
  match e "http_proxy", darwin with
  | some hp, true =>
    let s := "'http.proxy=" ++ hp ++ "'"
    let s := match e "GIT_CONFIG_PARAMETERS" with
      | some p => p ++ " " ++ s
      | none => s
    envSet e "GIT_CONFIG_PARAMETERS" s
  | _, _ => e

/-- Inject the default protocol allow list when none is set. -/
def gcProtocol (e : Env) : Env :=
  match e "GIT_ALLOW_PROTOCOL" with
  | none => envSet e "GIT_ALLOW_PROTOCOL"
      "file:git:http:https:ssh:persistent-http:persistent-https:sso:rpc"
  | some _ => e

/-- if bare: if gitdir: env[GIT_DIR] = gitdir. -/
def gcBare (bare : Bool) (gitdir : Option String) (e : Env) : Env :=
  if bare then
    match gitdir with
    | some g => envSet e "GIT_DIR" g
    | none => e
  else e

/-- The gitdir used by the bare-mode override: the explicit gitdir
argument if given, otherwise the project gitdir when a project was
passed. -/
def effGitdir (gitdir0 projectGitdir : Option String) : Option String :=
  match gitdir0 with
  | some g => some g
  | none => projectGitdir

/-- The child environment built by GitCommand.__init__ before the
spawn: strip the deny list, then apply the editor, ssh-proxy, darwin
http-proxy, protocol allow-list and bare-mode steps in source order. -/
def gitCommandEnv (ambient : Env) (a : GCArgs) (sp : Bool) (sock proxy : String)
    (darwin : Bool) (gitdir0 projectGitdir : Option String) : Env :=
  gcBare a.bare (effGitdir gitdir0 projectGitdir)
    (gcProtocol (gcProxy darwin (gcSsh sp sock proxy (gcEditor a.disable_editor
      (gcStrip ambient)))))

theorem gcStrip_deny (ambient : Env) (n : String) (h : n ∈ denyList) :
    gcStrip ambient n = none := by
  simp [gcStrip, h]

theorem gcEditor_pres (d : Bool) (e : Env) (n : String) (h : n ≠ "GIT_EDITOR") :
    gcEditor d e n = e n := by
  cases d with
  | false => rfl
  | true => exact envSet_ne e _ _ n h

theorem gcSsh_pres (sp : Bool) (sock proxy : String) (e : Env) (n : String)
    (h1 : n ≠ "REPO_SSH_SOCK") (h2 : n ≠ "GIT_SSH") :
    gcSsh sp sock proxy e n = e n := by
  cases sp with
  | false => rfl
  | true =>
    show envSet (envSet e "REPO_SSH_SOCK" sock) "GIT_SSH" proxy n = e n
    rw [envSet_ne _ _ _ n h2, envSet_ne _ _ _ n h1]

theorem gcProxy_pres (darwin : Bool) (e : Env) (n : String)
    (h : n ≠ "GIT_CONFIG_PARAMETERS") : gcProxy darwin e n = e n := by
  unfold gcProxy
  cases hp : e "http_proxy" with
  | none => cases darwin <;> rfl
  | some v =>
    cases darwin with
    | false => rfl
    | true => cases hc : e "GIT_CONFIG_PARAMETERS" <;> exact envSet_ne _ _ _ n h

theorem gcProtocol_pres (e : Env) (n : String) (h : n ≠ "GIT_ALLOW_PROTOCOL") :
    gcProtocol e n = e n := by
  unfold gcProtocol
  cases hc : e "GIT_ALLOW_PROTOCOL" with
  | none => exact envSet_ne _ _ _ n h
  | some v => rfl

theorem gcBare_pres (b : Bool) (gd : Option String) (e : Env) (n : String)
    (h : n ≠ "GIT_DIR") : gcBare b gd e n = e n := by
  cases b with
  | false => rfl
  | true =>
    cases gd with
    | none => rfl
    | some g => exact envSet_ne _ _ _ n h

/-- Lookup of a deny-listed name in the environment just before the
bare-mode step: always none. -/
theorem gcBase_deny (ambient : Env) (d sp darwin : Bool) (sock proxy : String)
    (n : String) (h : n ∈ denyList) :
    gcProtocol (gcProxy darwin (gcSsh sp sock proxy (gcEditor d (gcStrip ambient)))) n
      = none := by
  fin_cases h <;>
    rw [gcProtocol_pres _ _ (by decide), gcProxy_pres _ _ _ (by decide),
      gcSsh_pres _ _ _ _ _ (by decide) (by decide), gcEditor_pres _ _ _ (by decide),
      gcStrip_deny _ _ (by decide)]

/-- An ambient environment carrying an outer GIT_DIR override. -/
def ambientWithGitDir : Env :=
  fun n => if n = "GIT_DIR" then some "/outer/gitdir" else none

/-- Claim C6, counterexample: with the bare flag set and a gitdir
present, GIT_DIR — a deny-listed name present in the ambient
environment — is present in the derived child environment (re-pinned
to the explicit gitdir), so it is not absent for every combination of
the overlay flags. -/
theorem git_env_denylist_bare_cex :
    ambientWithGitDir "GIT_DIR" = some "/outer/gitdir" ∧
    "GIT_DIR" ∈ denyList ∧
    gitCommandEnv ambientWithGitDir ⟨true, false, false, false, false⟩ false "" ""
      false (some "/explicit/gitdir") none "GIT_DIR" = some "/explicit/gitdir" := by
  refine ⟨rfl, by decide, rfl⟩

/-- Claim C6 as amended: for every ambient environment and every
combination of the overlay flags, a deny-listed name never keeps its
ambient value: its value in the derived child environment is none,
except that GIT_DIR is re-pinned to the explicit effective gitdir when
the bare flag is set and such a gitdir exists. -/
theorem git_env_denylist_amended :
    ∀ (ambient : Env) (a : GCArgs) (sp : Bool) (sock proxy : String) (darwin : Bool)
      (gitdir0 projectGitdir : Option String) (name : String), name ∈ denyList →
      gitCommandEnv ambient a sp sock proxy darwin gitdir0 projectGitdir name =
        (if name = "GIT_DIR" ∧ a.bare = true then effGitdir gitdir0 projectGitdir
          else none) := by
  intro ambient a sp sock proxy darwin gitdir0 projectGitdir name hname
  unfold gitCommandEnv
  have hbase := gcBase_deny ambient a.disable_editor sp darwin sock proxy name hname
  by_cases hg : name = "GIT_DIR"
  · subst hg
    cases hb : a.bare with
    | false => simp [gcBare, hbase]
    | true =>
      cases hgd : effGitdir gitdir0 projectGitdir with
      | none => simp [gcBare, hbase]
      | some g => simp [gcBare, envSet]
  · rw [gcBare_pres _ _ _ _ hg, hbase]
    simp [hg]

/-- Witness for the amended C6 theorem: REPO_TRACE with no flags set is
absent from the derived child environment. -/
theorem git_env_denylist_amended_w :
    gitCommandEnv emptyAmbient ⟨false, false, false, false, false⟩ false "" "" false
      none none "REPO_TRACE" = none := by
  have h := git_env_denylist_amended emptyAmbient ⟨false, false, false, false, false⟩
    false "" "" false none none "REPO_TRACE" (by decide)
  simpa using h

/-! ## The header coalescer loop of DoWork
(subcmds/forall.py lines 254-313)

The loop reads chunks from the child stdout and stderr until both
reach end-of-stream.  A run is modelled by the delivered nonempty
chunks in delivery order, each tagged with its source stream; an empty
read only closes a stream and emits nothing, so end-of-stream needs no
explicit event. -/

/-- Which child stream a chunk came from. -/
inductive StreamTag
  | stdout
  | stderr
deriving DecidableEq

/-- One observable emission of the header coalescer: the blank
separator line, the one-time project banner, a flush of the buffered
stderr text, or a chunk written through to its destination stream. -/
inductive Emit
  | nl
  | banner (path : String)
  | errFlush (s : String)
  | write (tag : StreamTag) (s : String)
deriving DecidableEq

/-- Loop state: empty (no banner printed yet for this project) and the
buffered stderr text errbuf. -/
structure HState where
  empty : Bool
  errbuf : String
deriving DecidableEq

/-- One iteration of the coalescer on a delivered chunk.  In
non-verbose mode a stderr chunk is appended to errbuf and nothing is
emitted.  Otherwise, if no output has been emitted yet, the banner
block runs: a blank line unless this is project number zero, the
project banner, and a flush of any buffered stderr; then the chunk is
written through. -/
def headerStep (verbose : Bool) (cnt : Nat) (path : String) (st : HState)
    (tag : StreamTag) (buf : String) : HState × List Emit :=
  if !verbose && (tag == StreamTag.stderr) then
    ({ st with errbuf := st.errbuf ++ buf }, [])
  else if st.empty then
    ({ empty := false, errbuf := "" },
      (if cnt ≠ 0 then [Emit.nl] else []) ++ [Emit.banner path] ++
        (if st.errbuf ≠ "" then [Emit.errFlush st.errbuf] else []) ++
        [Emit.write tag buf])
  else (st, [Emit.write tag buf])

/-- The coalescer loop from a given state over the delivered chunks. -/
def headerRunAux (verbose : Bool) (cnt : Nat) (path : String) :
    HState → List (StreamTag × String) → List Emit
  | _, [] => []
  | st, ev :: rest =>
    let sr := headerStep verbose cnt path st ev.1 ev.2
    sr.2 ++ headerRunAux verbose cnt path sr.1 rest

/-- The full coalescer run for one project: initial state has empty
true and an empty stderr buffer. -/
def headerRun (verbose : Bool) (cnt : Nat) (path : String)
    (evs : List (StreamTag × String)) : List Emit :=
  headerRunAux verbose cnt path ⟨true, ""⟩ evs

/-- How many project banners a list of emissions contains. -/
def countBanner (l : List Emit) : Nat :=
  l.countP fun e => match e with
    | Emit.banner _ => true
    | _ => false

/-- Claim C1, counterexample: in header mode with verbose off, a
project whose only output is two stderr chunks then end-of-stream
emits nothing at all — no banner and no chunks — rather than the
banner once followed by the buffered stderr chunks. -/
theorem forall_header_stderr_only_cex :
    headerRun false 0 "proj" [(StreamTag.stderr, "warn1"), (StreamTag.stderr, "warn2")]
      = [] ∧
    countBanner (headerRun false 0 "proj"
      [(StreamTag.stderr, "warn1"), (StreamTag.stderr, "warn2")]) ≠ 1 := by
  refine ⟨rfl, by decide⟩

theorem headerStep_stderr (cnt : Nat) (path : String) (st : HState) (buf : String) :
    headerStep false cnt path st StreamTag.stderr buf =
      ({ st with errbuf := st.errbuf ++ buf }, []) := rfl

theorem headerStep_stdout (cnt : Nat) (path : String) (st : HState) (buf : String) :
    headerStep false cnt path st StreamTag.stdout buf =
      (if st.empty then
        ({ empty := false, errbuf := "" },
          (if cnt ≠ 0 then [Emit.nl] else []) ++ [Emit.banner path] ++
            (if st.errbuf ≠ "" then [Emit.errFlush st.errbuf] else []) ++
            [Emit.write StreamTag.stdout buf])
      else (st, [Emit.write StreamTag.stdout buf])) := rfl

theorem headerRunAux_all_stderr (cnt : Nat) (path : String) :
    ∀ (evs : List (StreamTag × String)), (∀ e ∈ evs, e.1 = StreamTag.stderr) →
      ∀ st : HState, headerRunAux false cnt path st evs = [] := by
  intro evs
  induction evs with
  | nil => intro _ st; rfl
  | cons ev rest ih =>
    intro h st
    cases ev with
    | mk t b =>
      have he : t = StreamTag.stderr := h (t, b) (by simp)
      subst he
      simp only [headerRunAux, headerStep_stderr, List.nil_append]
      exact ih (fun e hmem => h e (by simp [hmem])) _

theorem countBanner_append (l1 l2 : List Emit) :
    countBanner (l1 ++ l2) = countBanner l1 + countBanner l2 :=
  List.countP_append _ _ _

theorem headerRunAux_banner_count (path : String) (cnt : Nat) :
    ∀ (evs : List (StreamTag × String)) (st : HState),
      countBanner (headerRunAux false cnt path st evs) =
        (if st.empty && evs.any (fun e => e.1 == StreamTag.stdout) then 1 else 0) := by
  intro evs
  induction evs with
  | nil => intro st; simp [headerRunAux, countBanner]
  | cons ev rest ih =>
    intro st
    cases ev with
    | mk t b =>
      cases t with
      | stderr =>
        simp only [headerRunAux, headerStep_stderr, List.nil_append]
        rw [ih]
        have hbe : (StreamTag.stderr == StreamTag.stdout) = false := by decide
        simp only [List.any_cons, hbe, Bool.false_or]
      | stdout =>
        by_cases hemp : st.empty = true
        · simp only [headerRunAux, headerStep_stdout, hemp, if_true]
          rw [countBanner_append, ih]
          simp only [List.any_cons,
            show (StreamTag.stdout == StreamTag.stdout) = true from rfl, hemp,
            Bool.true_and, Bool.true_or, if_true]
          have hz : countBanner (headerRunAux false cnt path ⟨false, ""⟩ rest) = 0 := by
            rw [ih]
            simp
          by_cases h1 : cnt ≠ 0 <;> by_cases h2 : st.errbuf ≠ "" <;>
            simp [h1, h2, countBanner_append, countBanner, hz]
        · have hemp' : st.empty = false := by
            cases h : st.empty
            · rfl
            · exact absurd h hemp
          simp only [headerRunAux, headerStep_stdout, hemp', Bool.false_eq_true,
            if_false]
          rw [countBanner_append, ih]
          simp [countBanner, hemp']

/-- Claim C1 as amended: in header mode with verbose off, the banner is
keyed on the first stdout chunk.  A project whose only output is
stderr chunks then end-of-stream emits nothing — no banner, and the
buffered stderr is discarded; a project with no output at all emits no
banner; the banner is emitted exactly once when some stdout chunk
arrives, preceded by the blank separator for a project with nonzero
count, and followed by the flush of the stderr buffered so far and the
chunk itself. -/
theorem forall_header_banner_on_stdout :
    (∀ (evs : List (StreamTag × String)), (∀ e ∈ evs, e.1 = StreamTag.stderr) →
        ∀ (cnt : Nat) (path : String), headerRun false cnt path evs = []) ∧
    (∀ (cnt : Nat) (path : String), headerRun false cnt path [] = []) ∧
    (∀ (evs : List (StreamTag × String)) (cnt : Nat) (path : String),
        countBanner (headerRun false cnt path evs) =
          (if evs.any (fun e => e.1 == StreamTag.stdout) then 1 else 0)) ∧
    headerRun false 1 "proj" [(StreamTag.stderr, "w1"), (StreamTag.stderr, "w2"),
        (StreamTag.stdout, "o")] =
      [Emit.nl, Emit.banner "proj", Emit.errFlush "w1w2",
        Emit.write StreamTag.stdout "o"] := by
  refine ⟨?_, ?_, ?_, by decide⟩
  · intro evs h cnt path
    exact headerRunAux_all_stderr cnt path evs h _
  · intro cnt path
    rfl
  · intro evs cnt path
    rw [headerRun, headerRunAux_banner_count]
    rw [show ({ empty := true, errbuf := "" } : HState).empty = true from rfl,
      Bool.true_and]

/-- Witness for the amended C1 theorem: a single stderr chunk in
non-verbose header mode emits nothing. -/
theorem forall_header_banner_on_stdout_w :
    headerRun false 0 "p" [(StreamTag.stderr, "x")] = [] :=
  forall_header_banner_on_stdout.1 [(StreamTag.stderr, "x")] (by decide) 0 "p"

/-! ## GitCommand.Wait (git_command.py lines 213-243)

The readiness loop reads chunks from the captured child stdout and
stderr until both streams are drained, appends each chunk to the
per-stream capture buffer, optionally echoes it to the terminal stream
when the live-echo switch for that stream is on, and finally returns
p.wait().  A run is modelled by the delivered nonempty chunks in
delivery order; the interleaving across the two streams is arbitrary,
only the per-stream order is program order.  The live-echo switches
are the self.tee entries consulted by the loop; their initialization
lies outside these sources, so both settings are quantified over. -/

/-- Result of GitCommand.Wait: captured stdout and stderr, the chunks
echoed live to the terminal, and the child exit status. -/
structure WaitOut where
  stdout : String
  stderr : String
  echoed : List (StreamTag × String)
  status : Int
deriving DecidableEq

/-- The accumulation loop of Wait over delivered chunks. -/
def waitAux (teeOut teeErr : Bool) :
    String → String → List (StreamTag × String) → List (StreamTag × String) →
      String × String × List (StreamTag × String)
  | o, e, ech, [] => (o, e, ech)
  | o, e, ech, (StreamTag.stdout, buf) :: rest =>
    waitAux teeOut teeErr (o ++ buf) e
      (ech ++ if teeOut then [(StreamTag.stdout, buf)] else []) rest
  | o, e, ech, (StreamTag.stderr, buf) :: rest =>
    waitAux teeOut teeErr o (e ++ buf)
      (ech ++ if teeErr then [(StreamTag.stderr, buf)] else []) rest

/-- GitCommand.Wait: runs the loop from empty capture buffers and
returns the child's exit status once both streams are drained. -/
def GitCommand_Wait (teeOut teeErr : Bool) (evs : List (StreamTag × String))
    (status : Int) : WaitOut :=
  let r := waitAux teeOut teeErr "" "" [] evs
  { stdout := r.1, stderr := r.2.1, echoed := r.2.2, status := status }

/-- Concatenation of a list of strings in order. -/
def strConcat : List String → String
  | [] => ""
  | s :: rest => s ++ strConcat rest

/-- The full content the child wrote to one stream, in program order:
the concatenation of that stream's chunks in delivery order. -/
def streamContent (tag : StreamTag) (evs : List (StreamTag × String)) : String :=
  strConcat ((evs.filter fun e => e.1 == tag).map fun e => e.2)

theorem waitAux_spec (teeOut teeErr : Bool) :
    ∀ (evs : List (StreamTag × String)) (o e : String)
      (ech : List (StreamTag × String)),
      (waitAux teeOut teeErr o e ech evs).1 = o ++ streamContent StreamTag.stdout evs ∧
      (waitAux teeOut teeErr o e ech evs).2.1 =
        e ++ streamContent StreamTag.stderr evs := by
  intro evs
  induction evs with
  | nil =>
    intro o e ech
    exact ⟨(String.append_empty o).symm, (String.append_empty e).symm⟩
  | cons ev rest ih =>
    intro o e ech
    cases ev with
    | mk t b =>
      cases t with
      | stdout =>
        simp only [waitAux]
        constructor
        · rw [(ih (o ++ b) e _).1, String.append_assoc]
          rfl
        · rw [(ih (o ++ b) e _).2]
          rfl
      | stderr =>
        simp only [waitAux]
        constructor
        · rw [(ih o (e ++ b) _).1]
          rfl
        · rw [(ih o (e ++ b) _).2, String.append_assoc]
          rfl

/-- Claim C8: for a child spawned with both streams captured, Wait
accumulates the chunks of each stream so that once both streams reach
end-of-stream the captured stdout (resp. stderr) equals the full
content the child wrote to that stream in program order, for every
interleaving of the two streams and every live-echo setting, and Wait
then returns the child's exit status. -/
theorem git_wait_capture :
    ∀ (teeOut teeErr : Bool) (evs : List (StreamTag × String)) (status : Int),
      (GitCommand_Wait teeOut teeErr evs status).stdout =
        streamContent StreamTag.stdout evs ∧
      (GitCommand_Wait teeOut teeErr evs status).stderr =
        streamContent StreamTag.stderr evs ∧
      (GitCommand_Wait teeOut teeErr evs status).status = status := by
  intro teeOut teeErr evs status
  have h := waitAux_spec teeOut teeErr evs "" "" []
  refine ⟨?_, ?_, rfl⟩
  · show (waitAux teeOut teeErr "" "" [] evs).1 = _
    rw [h.1, String.empty_append]
  · show (waitAux teeOut teeErr "" "" [] evs).2.1 = _
    rw [h.2, String.empty_append]

/-! ## The control-socket path cache (git_command.py lines 34-49)

The module globals _ssh_sock_path and the fresh temp-directory supply
of tempfile.mkdtemp are modelled as an explicit state: sock is the
cached path, next feeds the fresh directory names mkdtemp would
produce, one per generation. -/

/-- The mutable module state read and written by ssh_sock. -/
structure SshCtx where
  sock : Option String
  next : Nat
deriving DecidableEq

/-- The path generated for the n-th fresh temp directory: a socket
path template inside a private subdirectory of the temp root, with the
user, host and port placeholders resolved by the transport binary. -/
def sshSockPath (n : Nat) : String :=
  "/tmp/ssh-" ++ toString n ++ "/master-%r@%h:%p"

/-- ssh_sock(create): returns the cached path when one exists; when
none exists it returns none if create is false, and otherwise
generates a fresh path, caches it and returns it. -/
def ssh_sock (create : Bool) (s : SshCtx) : Option String × SshCtx :=
  match s.sock with
  | some p => (some p, s)
  | none =>
    if create then
      let p := sshSockPath s.next
      (some p, { sock := some p, next := s.next + 1 })
    else (none, s)

/-- The state at the start of one process lifetime: no path cached,
no temp directory consumed. -/
def sshInit : SshCtx := { sock := none, next := 0 }

/-- A sequence of ssh_sock calls (each entry is the create flag),
returning the outputs in order and the final state. -/
def sshRun : SshCtx → List Bool → List (Option String) × SshCtx
  | s, [] => ([], s)
  | s, c :: cs =>
    let r := ssh_sock c s
    let rest := sshRun r.2 cs
    (r.1 :: rest.1, rest.2)

theorem ssh_sock_hit (c : Bool) (s : SshCtx) (p : String) (h : s.sock = some p) :
    ssh_sock c s = (some p, s) := by
  simp [ssh_sock, h]

theorem sshRun_stable (cs : List Bool) :
    ∀ (s : SshCtx) (p : String), s.sock = some p →
      sshRun s cs = (cs.map fun _ => some p, s) := by
  induction cs with
  | nil => intro s p h; rfl
  | cons c cs ih =>
    intro s p h
    simp only [sshRun, ssh_sock_hit c s p h, ih s p h, List.map_cons]

/-- Claim C9: within one process lifetime, a path is generated at most
once: a call that finds the cache filled returns the identical cached
path and leaves the state untouched; from the initial state the
generation counter never exceeds one whatever the call sequence;
create=false calls before any create=true call all return none and
generate nothing; and after the first create=true call every
subsequent call, with either flag, returns exactly the path that call
generated. -/
theorem ssh_sock_cached :
    (∀ (c : Bool) (s : SshCtx) (p : String), s.sock = some p →
        ssh_sock c s = (some p, s)) ∧
    (∀ cs : List Bool, (sshRun sshInit cs).2.next ≤ 1) ∧
    (∀ cs : List Bool, (∀ c ∈ cs, c = false) →
        sshRun sshInit cs = (cs.map fun _ => none, sshInit)) ∧
    (∀ s : SshCtx, s.sock = none →
        (ssh_sock true s).1 = some (sshSockPath s.next) ∧
        (∀ c : Bool, ssh_sock c (ssh_sock true s).2 =
          (some (sshSockPath s.next), (ssh_sock true s).2))) := by
  refine ⟨ssh_sock_hit, ?_, ?_, ?_⟩
  · intro cs
    induction cs with
    | nil => decide
    | cons c cs ih =>
      cases c with
      | false => exact ih
      | true =>
        have h1 : ssh_sock true sshInit =
            (some (sshSockPath 0), { sock := some (sshSockPath 0), next := 1 }) := rfl
        simp only [sshRun, h1,
          sshRun_stable cs { sock := some (sshSockPath 0), next := 1 }
            (sshSockPath 0) rfl]
        exact Nat.le_refl 1
  · intro cs
    induction cs with
    | nil => intro _; rfl
    | cons c cs ih =>
      intro h
      have hc : c = false := h c (by simp)
      subst hc
      simp only [sshRun, List.map_cons]
      have h1 : ssh_sock false sshInit = (none, sshInit) := rfl
      rw [h1, ih (fun x hx => h x (by simp [hx]))]
  · intro s hs
    have h1 : ssh_sock true s =
        (some (sshSockPath s.next),
          { sock := some (sshSockPath s.next), next := s.next + 1 }) := by
      simp [ssh_sock, hs]
    refine ⟨by rw [h1], ?_⟩
    intro c
    rw [h1]
    exact ssh_sock_hit c _ _ rfl

/-- Witness for the C9 theorem: two create=false calls from the start
of a lifetime both return none, and after a create=true call a
create=false call returns the same generated path. -/
theorem ssh_sock_cached_w :
    sshRun sshInit [false, false] = ([none, none], sshInit) ∧
    ssh_sock false (ssh_sock true sshInit).2 =
      (some (sshSockPath 0), (ssh_sock true sshInit).2) :=
  ⟨ssh_sock_cached.2.2.1 [false, false] (by decide),
    (ssh_sock_cached.2.2.2 sshInit rfl).2 false⟩

end GitRepo
